import Mathlib

/-
  Verification of the github-for-jira message-queue engine specification
  against a shallow embedding of the repository's code.

  The SQS queue engine (SqsQueue) itself is not among the provided source
  files; only its test suite (src/sqs/sqs.test.ts) is.  The engine is
  therefore modelled from the specification (spec.md sections 2-7), with
  the data-type field names taken from the test suite where it observes
  them (receiveCount, lastAttempt, retryable, retryDelaySec, isFailure,
  isExceedThreshold, resetTimeInSeconds, rateLimited, DelaySeconds).

  getNextPage (src/sync/pull-request.ts) and EncryptionClient.encrypt
  (encryption client source file) are translated directly from source.
-/

/-- Modelled from the spec: the engine's immutable construction-time
configuration (section 3, QueueConfig); the SqsQueue class source is missing
from the provided files.  Field names follow the test suite's constructor
call. -/
structure QueueConfig where
  queueName : String
  longPollingIntervalSec : Nat
  timeoutSec : Nat
  maxAttempts : Nat
deriving Repr, DecidableEq

/-- Modelled from the spec: the transport's hard delay ceiling (section 4.4,
MAX_DELAY; the test suite fixes it at 900 by expecting a clamp result of
899). -/
def MAX_MESSAGE_DELAY_SEC : Nat := 900

/-- Modelled from the spec: clamping of a requested delay into
[0, MAX_DELAY) (section 4.4); requests at or above the ceiling are truncated
to MAX_DELAY - 1. -/
def clampDelay (d : Nat) : Nat :=
  min d (MAX_MESSAGE_DELAY_SEC - 1)

/-- Modelled from the spec: result of the Error Classifier (section 3,
RetryDecision). -/
structure RetryDecision where
  retryable : Bool
  retryDelaySec : Nat
  isFailure : Bool
deriving Repr, DecidableEq

/-- Modelled from the spec: result of the Rate Limiter (section 3,
RateLimitVerdict); field names follow the test suite's mocked
preemptiveRateLimitCheck. -/
structure RateLimitVerdict where
  isExceedThreshold : Bool
  resetTimeInSeconds : Nat
deriving Repr, DecidableEq

/-- Modelled from the spec: a message body stored in the transport: the
serialized payload plus the optional rate-limited marker field that the
rate-limit preemption path adds (section 4.3). -/
structure MessageBody (α : Type) where
  payload : α
  rateLimited : Bool
deriving Repr, DecidableEq

/-- Modelled from the spec: the DispatchContext passed to the Handler and
the Error Classifier (section 3); field names follow the test suite's
objectContaining expectations. -/
structure Context (α : Type) where
  payload : α
  receiveCount : Nat
  lastAttempt : Bool
deriving Repr, DecidableEq

/-- Modelled from the spec: one message held by the durable transport:
identity, body, the logical time at which it becomes visible for delivery,
and how many times the transport has delivered it (section 2, Durable Queue
Transport; section 3, Envelope). -/
structure StoredMsg (α : Type) where
  msgId : Nat
  body : MessageBody α
  availableAt : Nat
  receiveCount : Nat
deriving Repr, DecidableEq

/-- Modelled from the spec: the caller-supplied collaborators owned by the
engine instance (section 6).  A collaborator that throws is modelled by
Except.error.  handlerDurationSec is the wall-clock duration of one Handler
invocation, used by the logical-time model. -/
structure Collaborators (α : Type) where
  requestHandler : Context α → Except String Unit
  errorHandler : String → Context α → Except String RetryDecision
  rateLimitChecker : α → Except String RateLimitVerdict
  tenantOf : α → String
  handlerDurationSec : Nat

/-- Modelled from the spec: observable actions of the engine and transport,
recorded with the logical time at which they occur (sections 4.2-4.5, 7). -/
inductive Event (α : Type) where
  | handlerStart (msgId : Nat) (t : Nat) (ctx : Context α)
  | handlerEnd (msgId : Nat) (t : Nat) (ok : Bool)
  | deleteMsg (msgId : Nat) (t : Nat)
  | visibilityChange (msgId : Nat) (delay : Nat) (t : Nat)
  | sendMsg (msgId : Nat) (body : MessageBody α) (delay : Nat) (t : Nat)
  | failureMetric (tenant : String) (t : Nat)
  | cycleError (msgId : Nat) (t : Nat)
  | startCalled (t : Nat)
  | stopResolved (t : Nat)
deriving Repr, DecidableEq

/-- Modelled from the spec: the transport plus a logical clock and the
chronological trace of observable events. -/
structure World (α : Type) where
  queue : List (StoredMsg α)
  nextId : Nat
  now : Nat
  trace : List (Event α)
deriving Repr, DecidableEq

/-- Modelled from the spec: the world before anything has happened. -/
def initialWorld {α : Type} : World α :=
  ⟨[], 0, 0, []⟩

/-- Modelled from the spec: sendMessage serializes the payload and enqueues
it with the clamped delay (section 4.4); the message becomes visible once
the delay elapses. -/
def sendMessage {α : Type} (w : World α) (p : α) (delaySeconds : Nat) : World α :=
  { w with
    queue := w.queue ++ [⟨w.nextId, ⟨p, false⟩, w.now + clampDelay delaySeconds, 0⟩],
    nextId := w.nextId + 1 }

/-- Modelled from the spec: sending a list of payloads in order, each with
zero requested delay (the producers of section 5). -/
def sendAll {α : Type} (w : World α) : List α → World α
  | [] => w
  | p :: ps => sendAll (sendMessage w p 0) ps

/-- Modelled from the spec: the DispatchContext built for a delivered
message: receive-count from the transport's delivery metadata and
last-attempt computed as receive-count at or above maxAttempts
(section 4.2, step 1). -/
def mkContext {α : Type} (cfg : QueueConfig) (m : StoredMsg α) : Context α :=
  ⟨m.body.payload, m.receiveCount, decide (cfg.maxAttempts ≤ m.receiveCount)⟩

/-- Modelled from the spec: dispatching one delivered message (sections
4.2, 4.3 and 7): rate-limit preemption first; otherwise the Handler runs;
on failure the Error Classifier decides delete versus
leave-for-redelivery-after-delay; a collaborator that itself throws aborts
the cycle leaving the message undeleted for natural redelivery after the
visibility timeout. -/
def dispatch {α : Type} (cfg : QueueConfig) (col : Collaborators α)
    (w : World α) (m : StoredMsg α) : World α :=
  let ctx := mkContext cfg m
  match col.rateLimitChecker m.body.payload with
  | Except.error _ =>
    { w with
      queue := w.queue ++ [{ m with availableAt := w.now + cfg.timeoutSec }],
      trace := w.trace ++ [Event.cycleError m.msgId w.now] }
  | Except.ok verdict =>
    if verdict.isExceedThreshold then
      let d := clampDelay verdict.resetTimeInSeconds
      let newBody : MessageBody α := { m.body with rateLimited := true }
      { w with
        queue := w.queue ++ [⟨w.nextId, newBody, w.now + d, 0⟩],
        nextId := w.nextId + 1,
        trace := w.trace ++
          [Event.deleteMsg m.msgId w.now, Event.sendMsg w.nextId newBody d w.now] }
    else
      let tEnd := w.now + col.handlerDurationSec
      match col.requestHandler ctx with
      | Except.ok _ =>
        { w with
          now := tEnd,
          trace := w.trace ++
            [Event.handlerStart m.msgId w.now ctx, Event.handlerEnd m.msgId tEnd true,
             Event.deleteMsg m.msgId tEnd] }
      | Except.error err =>
        match col.errorHandler err ctx with
        | Except.error _ =>
          { w with
            now := tEnd,
            queue := w.queue ++ [{ m with availableAt := tEnd + cfg.timeoutSec }],
            trace := w.trace ++
              [Event.handlerStart m.msgId w.now ctx, Event.handlerEnd m.msgId tEnd false,
               Event.cycleError m.msgId tEnd] }
        | Except.ok dec =>
          let metricEvents : List (Event α) :=
            if dec.isFailure then [Event.failureMetric (col.tenantOf m.body.payload) tEnd] else []
          if dec.retryable then
            let d := clampDelay dec.retryDelaySec
            { w with
              now := tEnd,
              queue := w.queue ++ [{ m with availableAt := tEnd + d }],
              trace := w.trace ++
                [Event.handlerStart m.msgId w.now ctx, Event.handlerEnd m.msgId tEnd false] ++
                metricEvents ++ [Event.visibilityChange m.msgId d tEnd] }
          else
            { w with
              now := tEnd,
              trace := w.trace ++
                [Event.handlerStart m.msgId w.now ctx, Event.handlerEnd m.msgId tEnd false] ++
                metricEvents ++ [Event.deleteMsg m.msgId tEnd] }

/-- Modelled from the spec: the messages of a received batch are dispatched
and fully resolved one after another, strictly in the order returned
(section 4.2). -/
def processBatch {α : Type} (cfg : QueueConfig) (col : Collaborators α) :
    World α → List (StoredMsg α) → World α
  | w, [] => w
  | w, m :: ms => processBatch cfg col (dispatch cfg col w m) ms

/-- Modelled from the spec: earliest time at which any stored message
becomes visible. -/
def earliestAvail {α : Type} : List (StoredMsg α) → Option Nat
  | [] => none
  | m :: ms =>
    match earliestAvail ms with
    | none => some m.availableAt
    | some t => some (min m.availableAt t)

/-- Modelled from the spec: delivery increments the transport's
receive-count bookkeeping (section 3, Envelope). -/
def bumpReceive {α : Type} (m : StoredMsg α) : StoredMsg α :=
  { m with receiveCount := m.receiveCount + 1 }

/-- Modelled from the spec: one receive/dispatch cycle of the polling loop
(section 4.2): the long poll suspends until the next message is visible
(logical time jumps to that instant), the batch of visible messages is
delivered, and the batch is processed strictly sequentially. -/
def pollCycle {α : Type} (cfg : QueueConfig) (col : Collaborators α)
    (w : World α) : World α :=
  match earliestAvail w.queue with
  | none => w
  | some t =>
    let now2 := max w.now t
    let batch := (w.queue.filter (fun m => decide (m.availableAt ≤ now2))).map bumpReceive
    let rest := w.queue.filter (fun m => ! decide (m.availableAt ≤ now2))
    processBatch cfg col { w with now := now2, queue := rest } batch

/-- Modelled from the spec: the sequential polling loop (section 4.2),
bounded by fuel; it stops when the queue has drained (the running engine
would keep long-polling, producing no further events). -/
def runLoop {α : Type} (cfg : QueueConfig) (col : Collaborators α) :
    Nat → World α → World α
  | 0, w => w
  | fuel + 1, w =>
    if w.queue.isEmpty then w
    else runLoop cfg col fuel (pollCycle cfg col w)

/-- Modelled from the spec: the engine lifecycle states (section 4.1).  The
transient Stopping state is unobservable here because a receive/dispatch
cycle is atomic in this model, so stop() drains and resolves in one step. -/
inductive LifeState where
  | stopped
  | running
deriving Repr, DecidableEq

/-- Modelled from the spec: an engine instance: lifecycle state plus the
transport world. -/
structure EngineSys (α : Type) where
  life : LifeState
  w : World α
deriving Repr, DecidableEq

/-- Modelled from the spec: the externally visible engine operations
(sections 4.1 and 6): start, stop, producer sendMessage, and one iteration
of the polling loop (which only runs while the engine is Running). -/
inductive EngineCmd (α : Type) where
  | cmdStart
  | cmdStop
  | cmdSend (p : α) (delaySeconds : Nat)
  | cmdPoll
deriving Repr, DecidableEq

/-- Modelled from the spec: the lifecycle state machine (section 4.1):
start() is a no-op when already Running; stop() drains the in-flight cycle
(atomic here) and resolves, after which no Handler invocation occurs until
a new start(); polling only dispatches while Running. -/
def engineStep {α : Type} (cfg : QueueConfig) (col : Collaborators α)
    (s : EngineSys α) : EngineCmd α → EngineSys α
  | EngineCmd.cmdStart =>
    if s.life = LifeState.running then s
    else ⟨LifeState.running, { s.w with trace := s.w.trace ++ [Event.startCalled s.w.now] }⟩
  | EngineCmd.cmdStop =>
    if s.life = LifeState.running then
      ⟨LifeState.stopped, { s.w with trace := s.w.trace ++ [Event.stopResolved s.w.now] }⟩
    else s
  | EngineCmd.cmdSend p d => ⟨s.life, sendMessage s.w p d⟩
  | EngineCmd.cmdPoll =>
    if s.life = LifeState.running then ⟨s.life, pollCycle cfg col s.w⟩ else s

/-- Modelled from the spec: running a list of engine commands from a given
engine state. -/
def engineRun {α : Type} (cfg : QueueConfig) (col : Collaborators α) :
    EngineSys α → List (EngineCmd α) → EngineSys α
  | s, [] => s
  | s, c :: cs => engineRun cfg col (engineStep cfg col s c) cs

/-- Modelled from the spec: a freshly constructed engine is Stopped with an
empty transport. -/
def initialSys {α : Type} : EngineSys α :=
  ⟨LifeState.stopped, initialWorld⟩

/-- Contexts of the Handler invocations recorded in a trace, in order. -/
def handlerCtxs {α : Type} (tr : List (Event α)) : List (Context α) :=
  tr.filterMap (fun e =>
    match e with
    | Event.handlerStart _ _ ctx => some ctx
    | _ => none)

/-- Number of Handler invocations recorded in a trace. -/
def handlerStartCount {α : Type} (tr : List (Event α)) : Nat :=
  (handlerCtxs tr).length

/-- Start times of the Handler invocations recorded in a trace, in order. -/
def handlerStartTimes {α : Type} (tr : List (Event α)) : List Nat :=
  tr.filterMap (fun e =>
    match e with
    | Event.handlerStart _ t _ => some t
    | _ => none)

/-- Message identities of the Handler invocations recorded in a trace. -/
def handlerStartIds {α : Type} (tr : List (Event α)) : List Nat :=
  tr.filterMap (fun e =>
    match e with
    | Event.handlerStart i _ _ => some i
    | _ => none)

/-- Message identities deleted from the transport, in order. -/
def deletedIds {α : Type} (tr : List (Event α)) : List Nat :=
  tr.filterMap (fun e =>
    match e with
    | Event.deleteMsg i _ => some i
    | _ => none)

/-- Visibility adjustments recorded in a trace: message identity and
applied delay. -/
def visibilityChanges {α : Type} (tr : List (Event α)) : List (Nat × Nat) :=
  tr.filterMap (fun e =>
    match e with
    | Event.visibilityChange i d _ => some (i, d)
    | _ => none)

/-- Messages enqueued by the engine itself (rate-limit requeues): identity,
body and applied delay. -/
def sentMsgs {α : Type} (tr : List (Event α)) : List (Nat × MessageBody α × Nat) :=
  tr.filterMap (fun e =>
    match e with
    | Event.sendMsg i b d _ => some (i, b, d)
    | _ => none)

/-- Tenant tags of the failure metrics recorded in a trace. -/
def metricTenants {α : Type} (tr : List (Event α)) : List String :=
  tr.filterMap (fun e =>
    match e with
    | Event.failureMetric tag _ => some tag
    | _ => none)

/-- Holds when Handler invocations never overlap: every invocation's start
event is immediately followed by its own end event, so a dispatch is fully
resolved before the next invocation begins. -/
def sequentialInvocations {α : Type} : List (Event α) → Bool
  | [] => true
  | Event.handlerStart i _ _ :: rest =>
    match rest with
    | Event.handlerEnd j _ _ :: rest2 => i == j && sequentialInvocations rest2
    | _ => false
  | _ :: rest => sequentialInvocations rest

/-- Scan of a trace tracking whether the engine is between a start() and
the resolution of a stop(); accepts when no Handler invocation occurs while
stopped. -/
def noHandlerAfterStopAux {α : Type} : Bool → List (Event α) → Bool
  | _, [] => true
  | _, Event.startCalled _ :: rest => noHandlerAfterStopAux true rest
  | _, Event.stopResolved _ :: rest => noHandlerAfterStopAux false rest
  | b, Event.handlerStart _ _ _ :: rest => b && noHandlerAfterStopAux b rest
  | b, _ :: rest => noHandlerAfterStopAux b rest

/-- Holds when every Handler invocation in the trace happens after a
start() and before the resolution of the following stop(). -/
def noHandlerAfterStop {α : Type} (tr : List (Event α)) : Bool :=
  noHandlerAfterStopAux false tr

/-- Running-flag value after scanning a trace (initially the engine is
stopped for a flag of false). -/
def lifeFlagAfter {α : Type} : Bool → List (Event α) → Bool
  | b, [] => b
  | _, Event.startCalled _ :: rest => lifeFlagAfter true rest
  | _, Event.stopResolved _ :: rest => lifeFlagAfter false rest
  | b, _ :: rest => lifeFlagAfter b rest

/-- Holds when a trace fragment contains no lifecycle events (it was
produced entirely by dispatching). -/
def dispatchEventsOnly {α : Type} (tr : List (Event α)) : Bool :=
  tr.all (fun e =>
    match e with
    | Event.startCalled _ => false
    | Event.stopResolved _ => false
    | _ => true)

/-- Holds for an event when any recorded DispatchContext computes its
last-attempt flag as receive-count at or above the configured maximum
attempt count. -/
def ctxObeysConfig {α : Type} (cfg : QueueConfig) : Event α → Bool
  | Event.handlerStart _ _ ctx =>
    ctx.lastAttempt == decide (cfg.maxAttempts ≤ ctx.receiveCount)
  | _ => true

/-- Holds when every DispatchContext recorded in the trace computes its
last-attempt flag from its receive-count and the configured maximum attempt
count. -/
def ctxInvariant {α : Type} (cfg : QueueConfig) (tr : List (Event α)) : Bool :=
  tr.all (ctxObeysConfig cfg)

/-- Trace produced by sequentially dispatching a batch whose every message
is handled successfully, starting at the given time. -/
def okTrace {α : Type} (cfg : QueueConfig) (col : Collaborators α) (t : Nat) :
    List (StoredMsg α) → List (Event α)
  | [] => []
  | m :: ms =>
    Event.handlerStart m.msgId t (mkContext cfg m) ::
    Event.handlerEnd m.msgId (t + col.handlerDurationSec) true ::
    Event.deleteMsg m.msgId (t + col.handlerDurationSec) ::
    okTrace cfg col (t + col.handlerDurationSec) ms

/-- Stored messages created by sending a list of payloads with zero delay
at time t, with identities starting at i. -/
def freshMsgs {α : Type} (i t : Nat) : List α → List (StoredMsg α)
  | [] => []
  | p :: ps => ⟨i, ⟨p, false⟩, t, 0⟩ :: freshMsgs (i + 1) t ps

/-- Configuration used by the timeout tests: one-second processing timeout
and three maximum attempts. -/
def cfgTimeouts : QueueConfig := ⟨"test", 0, 1, 3⟩

/-- Configuration used by the normal-execution tests: ten-second processing
timeout and three maximum attempts. -/
def cfgNormal : QueueConfig := ⟨"test", 0, 10, 3⟩

/-- Collaborators whose Handler always fails and whose classifier retries
with zero delay until the attempt count reaches three. -/
def colAlwaysFailRetryTwice : Collaborators String :=
  ⟨fun _ => Except.error "Something bad happened",
   fun _ ctx => Except.ok ⟨decide (ctx.receiveCount < 3), 0, true⟩,
   fun _ => Except.ok ⟨false, 0⟩,
   fun p => p,
   0⟩

/-- Collaborators whose Handler always fails; the classifier asks for one
retry with the given delay, then gives up. -/
def colRetryOnceThenStop (retryDelaySec : Nat) : Collaborators String :=
  ⟨fun _ => Except.error "Something bad happened",
   fun _ ctx =>
     if ctx.receiveCount = 1 then Except.ok ⟨true, retryDelaySec, true⟩
     else Except.ok ⟨false, 0, true⟩,
   fun _ => Except.ok ⟨false, 0⟩,
   fun p => p,
   0⟩

/-- Collaborators whose Rate Limiter always reports the threshold exceeded
with the given cooldown. -/
def colRateLimited (cooldown : Nat) : Collaborators String :=
  ⟨fun _ => Except.ok (),
   fun _ _ => Except.ok ⟨false, 0, true⟩,
   fun _ => Except.ok ⟨true, cooldown⟩,
   fun p => p,
   0⟩

/-- Collaborators whose Handler always succeeds in one second and whose
Rate Limiter never throttles. -/
def colAllOk : Collaborators String :=
  ⟨fun _ => Except.ok (),
   fun _ _ => Except.ok ⟨false, 0, false⟩,
   fun _ => Except.ok ⟨false, 0⟩,
   fun p => p,
   1⟩

/-- Collaborators whose Handler always fails and whose classifier reports
the error unretryable, flagging it as a failure as given. -/
def colUnretryable (b : Bool) : Collaborators String :=
  ⟨fun _ => Except.error "Something bad happened",
   fun _ _ => Except.ok ⟨false, 0, b⟩,
   fun _ => Except.ok ⟨false, 0⟩,
   fun p => p,
   0⟩

/-- Collaborators whose Rate Limiter itself throws. -/
def colLimiterThrows : Collaborators String :=
  ⟨fun _ => Except.ok (),
   fun _ _ => Except.ok ⟨false, 0, false⟩,
   fun _ => Except.error "limiter exploded",
   fun p => p,
   0⟩

/-- Collaborators whose Handler fails and whose Error Classifier itself
throws. -/
def colClassifierThrows : Collaborators String :=
  ⟨fun _ => Except.error "Something bad happened",
   fun _ _ => Except.error "classifier exploded",
   fun _ => Except.ok ⟨false, 0⟩,
   fun p => p,
   0⟩

/-
  Translation of getNextPage from src/src/sync/pull-request.ts, together
  with the JavaScript built-ins it relies on: the regular expression
  match for the next-page link header, the legacy url.parse query
  extraction, String.prototype.split, and the Number coercion.
-/

/-- Characters matched by the regular-expression class backslash-s and
trimmed by the Number coercion (the common JavaScript whitespace set). -/
def jsWhitespaceChar (c : Char) : Bool :=
  c == ' ' || c == '\t' || c == '\n' || c == '\r' || c == '\u000B' ||
  c == '\u000C' || c == '\u00A0' || c == '\uFEFF' || c == '\u2028' || c == '\u2029'

/-- Literal tail required by the link-header regular expression after the
angle-bracketed URL and the semicolon. -/
def relNextLit : List Char := "rel=\"next\"".data

/-- Attempt to match the pattern open-angle, one or more non-close-angle
characters (captured), close-angle, semicolon, optional whitespace, the
literal rel equals quoted next, at the head of the character list; returns
the captured URL on success. -/
def matchNextAt : List Char → Option (List Char)
  | '<' :: rest =>
    let cap := rest.takeWhile (fun c => !(c == '>'))
    let rem := rest.dropWhile (fun c => !(c == '>'))
    if cap.isEmpty then none
    else
      match rem with
      | '>' :: ';' :: tail =>
        if relNextLit.isPrefixOf (tail.dropWhile jsWhitespaceChar) then some cap
        else none
      | _ => none
  | _ => none

/-- Leftmost match of the link-header regular expression: the capture of
the first position where the whole pattern matches. -/
def findNextUrl : List Char → Option (List Char)
  | [] => none
  | c :: rest =>
    match matchNextAt (c :: rest) with
    | some cap => some cap
    | none => findNextUrl rest

/-- Query component as extracted by the legacy url.parse: the text after
the first question mark of the part before the first hash, or absent when
there is no question mark there. -/
def urlQuery (cs : List Char) : Option (List Char) :=
  let beforeHash := cs.takeWhile (fun c => !(c == '#'))
  if beforeHash.contains '?' then
    some ((beforeHash.dropWhile (fun c => !(c == '?'))).drop 1)
  else none

/-- Result of the JavaScript Number coercion: not-a-number, a signed
infinity, or a finite value. -/
inductive JsNum where
  | nan
  | infinite (neg : Bool)
  | num (q : ℚ)
deriving Repr, DecidableEq

/-- Numeric value of a decimal digit character. -/
def digitVal (c : Char) : Nat := c.toNat - 48

/-- Split a character list into its leading run of decimal digits and the
remainder. -/
def takeDigits (cs : List Char) : List Char × List Char :=
  (cs.takeWhile Char.isDigit, cs.dropWhile Char.isDigit)

/-- Natural number denoted by a list of decimal digits. -/
def digitsToNat (ds : List Char) : Nat :=
  ds.foldl (fun a c => a * 10 + digitVal c) 0

/-- Apply a decimal exponent given by a digit list to a value. -/
def expValue (q : ℚ) (neg : Bool) (ds : List Char) : ℚ :=
  if neg then q / ((10 : ℚ) ^ digitsToNat ds) else q * ((10 : ℚ) ^ digitsToNat ds)

/-- Parse the digits of an exponent, which must be nonempty and consume the
whole remainder. -/
def parseExpDigits (q : ℚ) (neg : Bool) (cs : List Char) : Option ℚ :=
  let p := takeDigits cs
  if p.1.isEmpty || !p.2.isEmpty then none else some (expValue q neg p.1)

/-- Parse an optional exponent suffix; anything else trailing makes the
whole literal invalid. -/
def parseExp (q : ℚ) : List Char → Option ℚ
  | [] => some q
  | c :: r1 =>
    if c == 'e' || c == 'E' then
      match r1 with
      | '+' :: r2 => parseExpDigits q false r2
      | '-' :: r2 => parseExpDigits q true r2
      | _ => parseExpDigits q false r1
    else none

/-- Value of an integer part together with a fractional digit list. -/
def fracValue (ip : Nat) (fp : List Char) : ℚ :=
  (ip : ℚ) + (digitsToNat fp : ℚ) / ((10 : ℚ) ^ fp.length)

/-- Parse an unsigned decimal literal: digits with an optional fractional
part, or a leading dot with mandatory fractional digits, each with an
optional exponent. -/
def parseDecimal (cs : List Char) : Option ℚ :=
  let p := takeDigits cs
  if p.1.isEmpty then
    match p.2 with
    | '.' :: r2 =>
      let f := takeDigits r2
      if f.1.isEmpty then none else parseExp (fracValue 0 f.1) f.2
    | _ => none
  else
    match p.2 with
    | '.' :: r2 =>
      let f := takeDigits r2
      parseExp (fracValue (digitsToNat p.1) f.1) f.2
    | _ => parseExp ((digitsToNat p.1 : Nat) : ℚ) p.2

/-- Value of a character as a digit in bases up to sixteen, or an
out-of-range marker. -/
def radixVal (c : Char) : Nat :=
  if c.isDigit then c.toNat - 48
  else if 'a' ≤ c ∧ c ≤ 'f' then c.toNat - 87
  else if 'A' ≤ c ∧ c ≤ 'F' then c.toNat - 55
  else 99

/-- Parse an unsigned literal in the given radix, which must be nonempty
and consume the whole remainder. -/
def parseRadix (radix : Nat) (cs : List Char) : Option ℚ :=
  if cs.isEmpty then none
  else if cs.all (fun c => radixVal c < radix) then
    some ((cs.foldl (fun a c => a * radix + radixVal c) 0 : Nat) : ℚ)
  else none

/-- Parse the part of a numeric literal after an explicit sign: the
Infinity literal or a decimal literal. -/
def jsSignedPart (neg : Bool) (cs : List Char) : JsNum :=
  if cs = "Infinity".data then JsNum.infinite neg
  else
    match parseDecimal cs with
    | some q => JsNum.num (if neg then -q else q)
    | none => JsNum.nan

/-- Trim JavaScript whitespace from both ends. -/
def jsTrim (cs : List Char) : List Char :=
  ((cs.dropWhile jsWhitespaceChar).reverse.dropWhile jsWhitespaceChar).reverse

/-- The JavaScript Number coercion of a string: trimmed empty input is
zero; otherwise an optionally signed decimal or Infinity literal, or an
unsigned hexadecimal, octal or binary literal; anything else is
not-a-number. -/
def jsNumber (s : String) : JsNum :=
  match jsTrim s.data with
  | [] => JsNum.num 0
  | '+' :: rest => jsSignedPart false rest
  | '-' :: rest => jsSignedPart true rest
  | '0' :: 'x' :: rest =>
    match parseRadix 16 rest with
    | some q => JsNum.num q
    | none => JsNum.nan
  | '0' :: 'X' :: rest =>
    match parseRadix 16 rest with
    | some q => JsNum.num q
    | none => JsNum.nan
  | '0' :: 'o' :: rest =>
    match parseRadix 8 rest with
    | some q => JsNum.num q
    | none => JsNum.nan
  | '0' :: 'O' :: rest =>
    match parseRadix 8 rest with
    | some q => JsNum.num q
    | none => JsNum.nan
  | '0' :: 'b' :: rest =>
    match parseRadix 2 rest with
    | some q => JsNum.num q
    | none => JsNum.nan
  | '0' :: 'B' :: rest =>
    match parseRadix 2 rest with
    | some q => JsNum.num q
    | none => JsNum.nan
  | cs => jsSignedPart false cs

/-- Number coercion of the value part of a query entry; a missing value is
the undefined argument, which coerces to not-a-number. -/
def jsNumOfValue : Option String → JsNum
  | none => JsNum.nan
  | some v => jsNumber v

/-- Translated from src/src/sync/pull-request.ts: find the next page number
from the response headers.  The link header is defaulted to the empty
string, searched for the first rel next URL; that URL's query is split on
ampersands, and every entry whose key part is page overwrites the result
with the Number coercion of its value part. -/
def getNextPage (link : Option String) : Option JsNum :=
  match findNextUrl (link.getD "").data with
  | none => none
  | some nextUrl =>
    match urlQuery nextUrl with
    | none => none
    | some q =>
      ((String.mk q).splitOn "&").foldl
        (fun acc query =>
          let parts := query.splitOn "="
          if parts.headD "" == "page" then some (jsNumOfValue (parts.get? 1))
          else acc)
        none

/-- The last query entry of a URL whose key part is page, as the claim
describes it: the query entries are scanned from the end for a page key and
its value part is taken. -/
def lastPageParam (u : List Char) : Option (Option String) :=
  match urlQuery u with
  | none => none
  | some q =>
    (((String.mk q).splitOn "&").reverse.find?
      (fun query => (query.splitOn "=").headD "" == "page")).map
      (fun query => (query.splitOn "=").get? 1)

/-
  Translation of EncryptionClient.encrypt from the encryption-client
  source file, with the axios side effect represented by its outcome: an
  either-style response that is the ok cipher text or the thrown error.
-/

/-- A thrown JavaScript error, reduced to its message field, the only part
the translated code reads or writes. -/
structure JsError where
  message : String
deriving Repr, DecidableEq

/-- Body of a successful encryption response. -/
structure EncryptResponse where
  cipherText : String
deriving Repr, DecidableEq

/-- Replacement text substituted for the plaintext in error messages. -/
def censoredStr : String := "<censored>"

/-- Split a character list around the first occurrence of a pattern,
returning the part before and the part after; the empty pattern matches
at the start. -/
def splitFirst (pat : List Char) : List Char → Option (List Char × List Char)
  | [] => if pat.isEmpty then some ([], []) else none
  | c :: rest =>
    if pat.isPrefixOf (c :: rest) then some ([], (c :: rest).drop pat.length)
    else
      match splitFirst pat rest with
      | some pr => some (c :: pr.1, pr.2)
      | none => none

/-- Whether a pattern occurs as a contiguous part of a character list. -/
def containsSub (pat s : List Char) : Bool :=
  (splitFirst pat s).isSome

/-- The JavaScript String replace with a string search value: only the
first occurrence of the pattern is replaced. -/
def jsReplaceFirst (s pat rep : String) : String :=
  match splitFirst pat.data s.data with
  | none => s
  | some pr => String.mk (pr.1 ++ rep.data ++ pr.2)

namespace EncryptionClient

/-- Translated from the encryption-client source: encrypt forwards the
cipher text of a successful response; when the request fails it rewrites
the error message by replacing the plaintext with the censored marker and
rethrows the error. -/
def encrypt (response : Except JsError EncryptResponse) (plainText : String) :
    Except JsError String :=
  match response with
  | Except.ok r => Except.ok r.cipherText
  | Except.error e =>
    Except.error { e with message := jsReplaceFirst e.message plainText censoredStr }

end EncryptionClient

/-
  Helper lemmas about the engine model.
-/

theorem runLoop_of_empty {α : Type} (cfg : QueueConfig) (col : Collaborators α)
    (fuel : Nat) (w : World α) (h : w.queue = []) : runLoop cfg col fuel w = w := by
  cases fuel with
  | zero => rfl
  | succ n => simp [runLoop, h]

theorem sendAll_spec {α : Type} (ps : List α) (w : World α) :
    sendAll w ps =
      { w with queue := w.queue ++ freshMsgs w.nextId w.now ps,
               nextId := w.nextId + ps.length } := by
  induction ps generalizing w with
  | nil => simp [sendAll, freshMsgs]
  | cons p ps ih =>
    rw [sendAll, ih]
    simp [sendMessage, freshMsgs, clampDelay, MAX_MESSAGE_DELAY_SEC]
    omega

theorem freshMsgs_length {α : Type} (i t : Nat) (ps : List α) :
    (freshMsgs i t ps).length = ps.length := by
  induction ps generalizing i with
  | nil => rfl
  | cons p ps ih => simp [freshMsgs, ih]

theorem freshMsgs_earliest {α : Type} (i t : Nat) (ps : List α) (h : ps ≠ []) :
    earliestAvail (freshMsgs i t ps) = some t := by
  induction ps generalizing i with
  | nil => exact absurd rfl h
  | cons p ps ih =>
    cases ps with
    | nil => simp [freshMsgs, earliestAvail]
    | cons q qs =>
      rw [freshMsgs, earliestAvail, ih (i + 1) (by simp)]
      simp

theorem freshMsgs_filter_le {α : Type} (i t n : Nat) (ps : List α) (h : t ≤ n) :
    (freshMsgs i t ps).filter (fun m => decide (m.availableAt ≤ n)) =
      freshMsgs i t ps := by
  induction ps generalizing i with
  | nil => rfl
  | cons p ps ih => simp [freshMsgs, List.filter, h, ih]

theorem freshMsgs_filter_gt {α : Type} (i t n : Nat) (ps : List α) (h : t ≤ n) :
    (freshMsgs i t ps).filter (fun m => ! decide (m.availableAt ≤ n)) = [] := by
  induction ps generalizing i with
  | nil => rfl
  | cons p ps ih => simp [freshMsgs, List.filter, h, ih]

theorem dispatch_allOk {α : Type} (cfg : QueueConfig) (col : Collaborators α)
    (w : World α) (m : StoredMsg α) (c : Nat)
    (hh : col.requestHandler (mkContext cfg m) = Except.ok ())
    (hrl : col.rateLimitChecker m.body.payload = Except.ok ⟨false, c⟩) :
    dispatch cfg col w m =
      { w with now := w.now + col.handlerDurationSec,
               trace := w.trace ++
                 [Event.handlerStart m.msgId w.now (mkContext cfg m),
                  Event.handlerEnd m.msgId (w.now + col.handlerDurationSec) true,
                  Event.deleteMsg m.msgId (w.now + col.handlerDurationSec)] } := by
  simp [dispatch, hrl, hh]

theorem processBatch_allOk {α : Type} (cfg : QueueConfig) (col : Collaborators α)
    (hh : ∀ ctx, col.requestHandler ctx = Except.ok ())
    (hrl : ∀ p, col.rateLimitChecker p = Except.ok ⟨false, 0⟩)
    (batch : List (StoredMsg α)) :
    ∀ w : World α, processBatch cfg col w batch =
      { w with now := w.now + batch.length * col.handlerDurationSec,
               trace := w.trace ++ okTrace cfg col w.now batch } := by
  induction batch with
  | nil => intro w; simp [processBatch, okTrace]
  | cons m ms ih =>
    intro w
    rw [processBatch, dispatch_allOk cfg col w m 0 (hh _) (hrl _), ih]
    simp [okTrace]
    ring

theorem handlerCtxs_okTrace {α : Type} (cfg : QueueConfig) (col : Collaborators α)
    (batch : List (StoredMsg α)) : ∀ t : Nat,
    handlerCtxs (okTrace cfg col t batch) = batch.map (mkContext cfg) := by
  induction batch with
  | nil => intro t; rfl
  | cons m ms ih => intro t; simp [okTrace, handlerCtxs, List.filterMap] at ih ⊢; exact ih _

theorem sequentialInvocations_okTrace {α : Type} (cfg : QueueConfig)
    (col : Collaborators α) (batch : List (StoredMsg α)) : ∀ t : Nat,
    sequentialInvocations (okTrace cfg col t batch) = true := by
  induction batch with
  | nil => intro t; rfl
  | cons m ms ih => intro t; simp [okTrace, sequentialInvocations]; exact ih _

theorem map_payload_fresh {α : Type} (cfg : QueueConfig) (i t : Nat) (ps : List α) :
    (((freshMsgs i t ps).map bumpReceive).map (mkContext cfg)).map Context.payload
      = ps := by
  induction ps generalizing i with
  | nil => rfl
  | cons p ps ih => simp [freshMsgs, bumpReceive, mkContext] at ih ⊢; exact ih _

/-- C2: for every sendMessage call the delay actually applied by the
transport is the requested delay clamped into the interval from zero up to
but excluding the ceiling: a request at or above the ceiling is truncated to
the ceiling minus one (123423453 becomes 899) and an in-range request passes
through unchanged (64 stays 64). -/
theorem c2_send_delay_clamped {α : Type} (w : World α) (p : α) (d : Nat) :
    (sendMessage w p d).queue
        = w.queue ++ [⟨w.nextId, ⟨p, false⟩, w.now + clampDelay d, 0⟩] ∧
    (MAX_MESSAGE_DELAY_SEC ≤ d → clampDelay d = MAX_MESSAGE_DELAY_SEC - 1) ∧
    (d < MAX_MESSAGE_DELAY_SEC → clampDelay d = d) ∧
    clampDelay 123423453 = 899 ∧ clampDelay 64 = 64 := by
  refine ⟨rfl, ?_, ?_, by decide, by decide⟩
  · intro h
    simp only [clampDelay, MAX_MESSAGE_DELAY_SEC] at h ⊢
    omega
  · intro h
    simp only [clampDelay, MAX_MESSAGE_DELAY_SEC] at h ⊢
    omega

theorem c2_send_delay_clamped_witness :
    MAX_MESSAGE_DELAY_SEC ≤ 123423453 ∧ clampDelay 123423453 = 899 ∧
    (64 < MAX_MESSAGE_DELAY_SEC ∧ clampDelay 64 = 64) :=
  ⟨by decide,
   (c2_send_delay_clamped (initialWorld (α := Nat)) 0 123423453).2.1 (by decide),
   by decide,
   (c2_send_delay_clamped (initialWorld (α := Nat)) 0 64).2.2.1 (by decide)⟩

theorem ctxObeysConfig_mkContext {α : Type} (cfg : QueueConfig) (i t : Nat)
    (m : StoredMsg α) :
    ctxObeysConfig cfg (Event.handlerStart i t (mkContext cfg m)) = true := by
  simp [ctxObeysConfig, mkContext]

theorem dispatch_limiterError {α : Type} (cfg : QueueConfig) (col : Collaborators α)
    (w : World α) (m : StoredMsg α) (e : String)
    (hrl : col.rateLimitChecker m.body.payload = Except.error e) :
    dispatch cfg col w m =
      { w with queue := w.queue ++ [{ m with availableAt := w.now + cfg.timeoutSec }],
               trace := w.trace ++ [Event.cycleError m.msgId w.now] } := by
  simp [dispatch, hrl]

theorem dispatch_rateLimited {α : Type} (cfg : QueueConfig) (col : Collaborators α)
    (w : World α) (m : StoredMsg α) (c : Nat)
    (hrl : col.rateLimitChecker m.body.payload = Except.ok ⟨true, c⟩) :
    dispatch cfg col w m =
      { w with
        queue := w.queue ++
          [⟨w.nextId, ⟨m.body.payload, true⟩, w.now + clampDelay c, 0⟩],
        nextId := w.nextId + 1,
        trace := w.trace ++ [Event.deleteMsg m.msgId w.now,
          Event.sendMsg w.nextId ⟨m.body.payload, true⟩ (clampDelay c) w.now] } := by
  simp [dispatch, hrl]

theorem dispatch_classifierError {α : Type} (cfg : QueueConfig)
    (col : Collaborators α) (w : World α) (m : StoredMsg α) (c : Nat)
    (err e2 : String)
    (hrl : col.rateLimitChecker m.body.payload = Except.ok ⟨false, c⟩)
    (hh : col.requestHandler (mkContext cfg m) = Except.error err)
    (hc : col.errorHandler err (mkContext cfg m) = Except.error e2) :
    dispatch cfg col w m =
      { w with
        now := w.now + col.handlerDurationSec,
        queue := w.queue ++
          [{ m with availableAt := w.now + col.handlerDurationSec + cfg.timeoutSec }],
        trace := w.trace ++ [Event.handlerStart m.msgId w.now (mkContext cfg m),
          Event.handlerEnd m.msgId (w.now + col.handlerDurationSec) false,
          Event.cycleError m.msgId (w.now + col.handlerDurationSec)] } := by
  simp [dispatch, hrl, hh, hc]

theorem dispatch_retry {α : Type} (cfg : QueueConfig) (col : Collaborators α)
    (w : World α) (m : StoredMsg α) (c T : Nat) (b : Bool) (err : String)
    (hrl : col.rateLimitChecker m.body.payload = Except.ok ⟨false, c⟩)
    (hh : col.requestHandler (mkContext cfg m) = Except.error err)
    (hc : col.errorHandler err (mkContext cfg m) = Except.ok ⟨true, T, b⟩) :
    dispatch cfg col w m =
      { w with
        now := w.now + col.handlerDurationSec,
        queue := w.queue ++
          [{ m with availableAt := w.now + col.handlerDurationSec + clampDelay T }],
        trace := w.trace ++ [Event.handlerStart m.msgId w.now (mkContext cfg m),
            Event.handlerEnd m.msgId (w.now + col.handlerDurationSec) false] ++
          (if b then [Event.failureMetric (col.tenantOf m.body.payload)
              (w.now + col.handlerDurationSec)] else []) ++
          [Event.visibilityChange m.msgId (clampDelay T)
            (w.now + col.handlerDurationSec)] } := by
  cases b with
  | true => simp [dispatch, hrl, hh, hc]
  | false => simp [dispatch, hrl, hh, hc]

theorem dispatch_noRetry {α : Type} (cfg : QueueConfig) (col : Collaborators α)
    (w : World α) (m : StoredMsg α) (c T : Nat) (b : Bool) (err : String)
    (hrl : col.rateLimitChecker m.body.payload = Except.ok ⟨false, c⟩)
    (hh : col.requestHandler (mkContext cfg m) = Except.error err)
    (hc : col.errorHandler err (mkContext cfg m) = Except.ok ⟨false, T, b⟩) :
    dispatch cfg col w m =
      { w with
        now := w.now + col.handlerDurationSec,
        trace := w.trace ++ [Event.handlerStart m.msgId w.now (mkContext cfg m),
            Event.handlerEnd m.msgId (w.now + col.handlerDurationSec) false] ++
          (if b then [Event.failureMetric (col.tenantOf m.body.payload)
              (w.now + col.handlerDurationSec)] else []) ++
          [Event.deleteMsg m.msgId (w.now + col.handlerDurationSec)] } := by
  cases b with
  | true => simp [dispatch, hrl, hh, hc]
  | false => simp [dispatch, hrl, hh, hc]

theorem dispatch_ctxInvariant {α : Type} (cfg : QueueConfig) (col : Collaborators α)
    (w : World α) (m : StoredMsg α) (h : ctxInvariant cfg w.trace = true) :
    ctxInvariant cfg (dispatch cfg col w m).trace = true := by
  cases hrl : col.rateLimitChecker m.body.payload with
  | error e =>
    rw [dispatch_limiterError cfg col w m e hrl]
    simpa [ctxInvariant, List.all_append, ctxObeysConfig] using h
  | ok verdict =>
    cases verdict with
    | mk ex cool =>
      cases ex with
      | true =>
        rw [dispatch_rateLimited cfg col w m cool hrl]
        simpa [ctxInvariant, List.all_append, ctxObeysConfig] using h
      | false =>
        cases hcall : col.requestHandler (mkContext cfg m) with
        | ok u =>
          cases u
          rw [dispatch_allOk cfg col w m cool hcall hrl]
          simpa [ctxInvariant, List.all_append, ctxObeysConfig, mkContext] using h
        | error err =>
          cases hcl : col.errorHandler err (mkContext cfg m) with
          | error e2 =>
            rw [dispatch_classifierError cfg col w m cool err e2 hrl hcall hcl]
            simpa [ctxInvariant, List.all_append, ctxObeysConfig, mkContext] using h
          | ok dec =>
            cases dec with
            | mk ret rdelay bfail =>
              cases ret with
              | true =>
                rw [dispatch_retry cfg col w m cool rdelay bfail err hrl hcall hcl]
                cases bfail with
                | true =>
                  simpa [ctxInvariant, List.all_append, ctxObeysConfig, mkContext] using h
                | false =>
                  simpa [ctxInvariant, List.all_append, ctxObeysConfig, mkContext] using h
              | false =>
                rw [dispatch_noRetry cfg col w m cool rdelay bfail err hrl hcall hcl]
                cases bfail with
                | true =>
                  simpa [ctxInvariant, List.all_append, ctxObeysConfig, mkContext] using h
                | false =>
                  simpa [ctxInvariant, List.all_append, ctxObeysConfig, mkContext] using h

theorem processBatch_ctxInvariant {α : Type} (cfg : QueueConfig)
    (col : Collaborators α) (batch : List (StoredMsg α)) :
    ∀ w : World α, ctxInvariant cfg w.trace = true →
      ctxInvariant cfg (processBatch cfg col w batch).trace = true := by
  induction batch with
  | nil => intro w h; exact h
  | cons m ms ih =>
    intro w h
    rw [processBatch]
    exact ih _ (dispatch_ctxInvariant cfg col w m h)

theorem pollCycle_ctxInvariant {α : Type} (cfg : QueueConfig)
    (col : Collaborators α) (w : World α) (h : ctxInvariant cfg w.trace = true) :
    ctxInvariant cfg (pollCycle cfg col w).trace = true := by
  unfold pollCycle
  cases earliestAvail w.queue with
  | none => exact h
  | some t => exact processBatch_ctxInvariant cfg col _ _ h

theorem runLoop_ctxInvariant {α : Type} (cfg : QueueConfig) (col : Collaborators α)
    (fuel : Nat) : ∀ w : World α, ctxInvariant cfg w.trace = true →
      ctxInvariant cfg (runLoop cfg col fuel w).trace = true := by
  induction fuel with
  | zero => intro w h; exact h
  | succ n ih =>
    intro w h
    rw [runLoop]
    by_cases hq : w.queue.isEmpty = true
    · simpa [hq] using h
    · simpa [hq] using ih _ (pollCycle_ctxInvariant cfg col w h)

/-- C3: in every run the DispatchContext handed to the Handler computes its
last-attempt flag as receive-count at or above maxAttempts (an invariant of
the loop); concretely, with maxAttempts 3 and a persistently failing Handler
whose classifier retries until the attempts are exhausted, the Handler is
invoked exactly 3 times, the contexts carrying receive counts 1, 2, 3, and
only the 3rd is flagged as the last attempt. -/
theorem c3_receive_count_and_last_attempt {α : Type} (cfg : QueueConfig)
    (col : Collaborators α) (fuel : Nat) (w : World α)
    (h : ctxInvariant cfg w.trace = true) :
    ctxInvariant cfg (runLoop cfg col fuel w).trace = true ∧
    handlerStartCount (runLoop cfgTimeouts colAlwaysFailRetryTwice 10
        (sendAll initialWorld ["tenant"])).trace = 3 ∧
    handlerCtxs (runLoop cfgTimeouts colAlwaysFailRetryTwice 10
        (sendAll initialWorld ["tenant"])).trace
      = [⟨"tenant", 1, false⟩, ⟨"tenant", 2, false⟩, ⟨"tenant", 3, true⟩] :=
  ⟨runLoop_ctxInvariant cfg col fuel w h, by decide, by decide⟩

theorem c3_receive_count_and_last_attempt_witness :
    ctxInvariant cfgTimeouts
      (runLoop cfgTimeouts colAlwaysFailRetryTwice 10
        (sendAll initialWorld ["tenant"])).trace = true ∧
    handlerStartCount (runLoop cfgTimeouts colAlwaysFailRetryTwice 10
        (sendAll initialWorld ["tenant"])).trace = 3 :=
  ⟨(c3_receive_count_and_last_attempt cfgTimeouts colAlwaysFailRetryTwice 10
      (sendAll initialWorld ["tenant"]) (by decide)).1,
   (c3_receive_count_and_last_attempt cfgTimeouts colAlwaysFailRetryTwice 10
      (sendAll initialWorld ["tenant"]) (by decide)).2.1⟩

theorem runLoop_succ_cons {α : Type} (cfg : QueueConfig) (col : Collaborators α)
    (n : Nat) (m : StoredMsg α) (q : List (StoredMsg α)) (i now : Nat)
    (tr : List (Event α)) :
    runLoop cfg col (n + 1) ⟨m :: q, i, now, tr⟩ =
      runLoop cfg col n (pollCycle cfg col ⟨m :: q, i, now, tr⟩) := by
  rw [runLoop]
  simp

theorem pollCycle_singleton {α : Type} (cfg : QueueConfig) (col : Collaborators α)
    (m : StoredMsg α) (i now : Nat) (tr : List (Event α)) :
    pollCycle cfg col ⟨[m], i, now, tr⟩ =
      dispatch cfg col ⟨[], i, max now m.availableAt, tr⟩ (bumpReceive m) := by
  unfold pollCycle
  simp [earliestAvail, List.filter, processBatch, Nat.le_max_right]

theorem c4_run (T : Nat) :
    runLoop cfgNormal (colRetryOnceThenStop T) 10 (sendAll initialWorld ["t"]) =
      ⟨[], 1, clampDelay T,
       [Event.handlerStart 0 0 ⟨"t", 1, false⟩,
        Event.handlerEnd 0 0 false,
        Event.failureMetric "t" 0,
        Event.visibilityChange 0 (clampDelay T) 0,
        Event.handlerStart 0 (clampDelay T) ⟨"t", 2, false⟩,
        Event.handlerEnd 0 (clampDelay T) false,
        Event.failureMetric "t" (clampDelay T),
        Event.deleteMsg 0 (clampDelay T)]⟩ := by
  have h1 : pollCycle cfgNormal (colRetryOnceThenStop T)
      ⟨[⟨0, ⟨"t", false⟩, 0, 0⟩], 1, 0, []⟩ =
      ⟨[⟨0, ⟨"t", false⟩, clampDelay T, 1⟩], 1, 0,
       [Event.handlerStart 0 0 ⟨"t", 1, false⟩, Event.handlerEnd 0 0 false,
        Event.failureMetric "t" 0, Event.visibilityChange 0 (clampDelay T) 0]⟩ := by
    rw [pollCycle_singleton]
    simp [dispatch, colRetryOnceThenStop, bumpReceive, mkContext, cfgNormal]
  have h2 : pollCycle cfgNormal (colRetryOnceThenStop T)
      ⟨[⟨0, ⟨"t", false⟩, clampDelay T, 1⟩], 1, 0,
       [Event.handlerStart 0 0 ⟨"t", 1, false⟩, Event.handlerEnd 0 0 false,
        Event.failureMetric "t" 0, Event.visibilityChange 0 (clampDelay T) 0]⟩ =
      ⟨[], 1, clampDelay T,
       [Event.handlerStart 0 0 ⟨"t", 1, false⟩,
        Event.handlerEnd 0 0 false,
        Event.failureMetric "t" 0,
        Event.visibilityChange 0 (clampDelay T) 0,
        Event.handlerStart 0 (clampDelay T) ⟨"t", 2, false⟩,
        Event.handlerEnd 0 (clampDelay T) false,
        Event.failureMetric "t" (clampDelay T),
        Event.deleteMsg 0 (clampDelay T)]⟩ := by
    rw [pollCycle_singleton, Nat.zero_max]
    simp [dispatch, colRetryOnceThenStop, bumpReceive, mkContext, cfgNormal]
  have e0 : sendAll (initialWorld (α := String)) ["t"] =
      ⟨[⟨0, ⟨"t", false⟩, 0, 0⟩], 1, 0, []⟩ := rfl
  rw [e0, show (10 : Nat) = 9 + 1 from rfl, runLoop_succ_cons, h1,
      show (9 : Nat) = 8 + 1 from rfl, runLoop_succ_cons, h2]
  exact runLoop_of_empty _ _ _ _ rfl

/-- C4 (amended): on Handler failure with classifier result retryable with
delay T, the engine does not delete the message but adjusts its visibility,
and the same delivery identity is redelivered min(T, ceiling - 1) seconds
after the first failure (the requested delay clamped as in section 4.4);
with an unretryable second classifier result the Handler is invoked exactly
once more, 2 invocations in total. -/
theorem c4_retry_visibility_clamped (T : Nat) :
    handlerStartCount (runLoop cfgNormal (colRetryOnceThenStop T) 10
        (sendAll initialWorld ["t"])).trace = 2 ∧
    handlerStartIds (runLoop cfgNormal (colRetryOnceThenStop T) 10
        (sendAll initialWorld ["t"])).trace = [0, 0] ∧
    handlerStartTimes (runLoop cfgNormal (colRetryOnceThenStop T) 10
        (sendAll initialWorld ["t"])).trace = [0, clampDelay T] ∧
    visibilityChanges (runLoop cfgNormal (colRetryOnceThenStop T) 10
        (sendAll initialWorld ["t"])).trace = [(0, clampDelay T)] ∧
    deletedIds (runLoop cfgNormal (colRetryOnceThenStop T) 10
        (sendAll initialWorld ["t"])).trace = [0] ∧
    0 + clampDelay T ≤ (handlerStartTimes (runLoop cfgNormal (colRetryOnceThenStop T)
        10 (sendAll initialWorld ["t"])).trace).getD 1 0 := by
  rw [c4_run]
  refine ⟨rfl, rfl, rfl, rfl, rfl, ?_⟩
  simp [handlerStartTimes]

/-- C4 counterexample: with classifier result retryable and retryDelaySec
1000, the second Handler invocation happens 899 seconds after the first
failure, strictly earlier than the 1000 seconds the claim requires. -/
theorem c4_counterexample :
    handlerStartCount (runLoop cfgNormal (colRetryOnceThenStop 1000) 10
        (sendAll initialWorld ["t"])).trace = 2 ∧
    handlerStartTimes (runLoop cfgNormal (colRetryOnceThenStop 1000) 10
        (sendAll initialWorld ["t"])).trace = [0, 899] ∧
    ¬ (0 + 1000 ≤ (handlerStartTimes (runLoop cfgNormal (colRetryOnceThenStop 1000)
        10 (sendAll initialWorld ["t"])).trace).getD 1 0) := by
  decide

/-- C5 (amended): when the Rate Limiter reports the threshold exceeded with
a cooldown, the Handler is never invoked in that cycle, no failure metric is
recorded, the original message is deleted, and a new message with a fresh
identity and receive count zero is enqueued carrying the original payload
plus the rate-limited marker, delayed by the cooldown clamped as in section
4.4 (min of the cooldown and ceiling - 1). -/
theorem c5_rate_limit_requeue {α : Type} (cfg : QueueConfig)
    (col : Collaborators α) (w : World α) (m : StoredMsg α) (cooldown : Nat)
    (hrl : col.rateLimitChecker m.body.payload = Except.ok ⟨true, cooldown⟩) :
    dispatch cfg col w m =
      { w with
        queue := w.queue ++
          [⟨w.nextId, ⟨m.body.payload, true⟩, w.now + clampDelay cooldown, 0⟩],
        nextId := w.nextId + 1,
        trace := w.trace ++ [Event.deleteMsg m.msgId w.now,
          Event.sendMsg w.nextId ⟨m.body.payload, true⟩ (clampDelay cooldown) w.now] } ∧
    handlerCtxs (dispatch cfg col w m).trace = handlerCtxs w.trace ∧
    metricTenants (dispatch cfg col w m).trace = metricTenants w.trace ∧
    deletedIds (dispatch cfg col w m).trace = deletedIds w.trace ++ [m.msgId] ∧
    sentMsgs (dispatch cfg col w m).trace = sentMsgs w.trace ++
      [(w.nextId, ⟨m.body.payload, true⟩, clampDelay cooldown)] := by
  have h := dispatch_rateLimited cfg col w m cooldown hrl
  refine ⟨h, ?_, ?_, ?_, ?_⟩ <;> rw [h] <;>
    simp [handlerCtxs, metricTenants, deletedIds, sentMsgs, List.filterMap_append]

theorem c5_rate_limit_requeue_witness :
    dispatch cfgNormal (colRateLimited 123) initialWorld ⟨0, ⟨"p", false⟩, 0, 1⟩ =
      ⟨[⟨0, ⟨"p", true⟩, 123, 0⟩], 1, 0,
       [Event.deleteMsg 0 0, Event.sendMsg 0 ⟨"p", true⟩ 123 0]⟩ ∧
    handlerCtxs (dispatch cfgNormal (colRateLimited 123) initialWorld
        ⟨0, ⟨"p", false⟩, 0, 1⟩).trace = [] ∧
    metricTenants (dispatch cfgNormal (colRateLimited 123) initialWorld
        ⟨0, ⟨"p", false⟩, 0, 1⟩).trace = [] ∧
    deletedIds (dispatch cfgNormal (colRateLimited 123) initialWorld
        ⟨0, ⟨"p", false⟩, 0, 1⟩).trace = [0] ∧
    sentMsgs (dispatch cfgNormal (colRateLimited 123) initialWorld
        ⟨0, ⟨"p", false⟩, 0, 1⟩).trace = [(0, ⟨"p", true⟩, 123)] := by
  have h := c5_rate_limit_requeue cfgNormal (colRateLimited 123) initialWorld
    ⟨0, ⟨"p", false⟩, 0, 1⟩ 123 rfl
  exact ⟨h.1, h.2.1, h.2.2.1, h.2.2.2.1, h.2.2.2.2⟩

/-- C5 counterexample: with the limiter reporting cooldownSeconds 1000, the
requeued message's delay is 899, not the 1000 the claim requires. -/
theorem c5_counterexample :
    handlerCtxs (dispatch cfgNormal (colRateLimited 1000) initialWorld
        ⟨0, ⟨"p", false⟩, 0, 1⟩).trace = [] ∧
    sentMsgs (dispatch cfgNormal (colRateLimited 1000) initialWorld
        ⟨0, ⟨"p", false⟩, 0, 1⟩).trace = [(0, ⟨"p", true⟩, 899)] ∧
    ¬ (sentMsgs (dispatch cfgNormal (colRateLimited 1000) initialWorld
        ⟨0, ⟨"p", false⟩, 0, 1⟩).trace = [(0, ⟨"p", true⟩, 1000)]) := by
  decide

/-- C6: on Handler failure with an unretryable classifier result the
message is deleted from the transport after exactly one Handler invocation
in the cycle, and a failure metric tagged with the tenant key is recorded
exactly when the classifier result flags the error as a failure. -/
theorem c6_unretryable_delete {α : Type} (cfg : QueueConfig)
    (col : Collaborators α) (w : World α) (m : StoredMsg α) (c T : Nat)
    (b : Bool) (err : String)
    (hrl : col.rateLimitChecker m.body.payload = Except.ok ⟨false, c⟩)
    (hh : col.requestHandler (mkContext cfg m) = Except.error err)
    (hc : col.errorHandler err (mkContext cfg m) = Except.ok ⟨false, T, b⟩) :
    (dispatch cfg col w m).queue = w.queue ∧
    handlerStartCount (dispatch cfg col w m).trace
      = handlerStartCount w.trace + 1 ∧
    deletedIds (dispatch cfg col w m).trace = deletedIds w.trace ++ [m.msgId] ∧
    metricTenants (dispatch cfg col w m).trace = metricTenants w.trace ++
      (if b then [col.tenantOf m.body.payload] else []) := by
  have h := dispatch_noRetry cfg col w m c T b err hrl hh hc
  refine ⟨by rw [h], ?_, ?_, ?_⟩ <;> rw [h] <;> cases b <;>
    simp [handlerStartCount, handlerCtxs, deletedIds, metricTenants,
      List.filterMap_append]

theorem c6_unretryable_delete_witness :
    (dispatch cfgNormal (colUnretryable true) initialWorld
        ⟨0, ⟨"p", false⟩, 0, 1⟩).queue = [] ∧
    handlerStartCount (dispatch cfgNormal (colUnretryable true) initialWorld
        ⟨0, ⟨"p", false⟩, 0, 1⟩).trace = 1 ∧
    deletedIds (dispatch cfgNormal (colUnretryable true) initialWorld
        ⟨0, ⟨"p", false⟩, 0, 1⟩).trace = [0] ∧
    metricTenants (dispatch cfgNormal (colUnretryable true) initialWorld
        ⟨0, ⟨"p", false⟩, 0, 1⟩).trace = ["p"] := by
  have h := c6_unretryable_delete cfgNormal (colUnretryable true) initialWorld
    ⟨0, ⟨"p", false⟩, 0, 1⟩ 0 0 true "Something bad happened" rfl rfl rfl
  exact ⟨h.1, h.2.1, h.2.2.1, h.2.2.2⟩

theorem noHandlerAfterStopAux_append {α : Type} (xs ys : List (Event α)) :
    ∀ b, noHandlerAfterStopAux b (xs ++ ys)
      = (noHandlerAfterStopAux b xs &&
         noHandlerAfterStopAux (lifeFlagAfter b xs) ys) := by
  induction xs with
  | nil => intro b; simp [noHandlerAfterStopAux, lifeFlagAfter]
  | cons e xs ih =>
    intro b
    cases e <;> simp [noHandlerAfterStopAux, lifeFlagAfter, ih, Bool.and_assoc]

theorem lifeFlagAfter_append {α : Type} (xs ys : List (Event α)) :
    ∀ b, lifeFlagAfter b (xs ++ ys) = lifeFlagAfter (lifeFlagAfter b xs) ys := by
  induction xs with
  | nil => intro b; rfl
  | cons e xs ih => intro b; cases e <;> simp [lifeFlagAfter, ih]

theorem dispatch_stopSafety {α : Type} (cfg : QueueConfig) (col : Collaborators α)
    (w : World α) (m : StoredMsg α)
    (h1 : noHandlerAfterStopAux false w.trace = true)
    (h2 : lifeFlagAfter false w.trace = true) :
    noHandlerAfterStopAux false (dispatch cfg col w m).trace = true ∧
    lifeFlagAfter false (dispatch cfg col w m).trace = true := by
  cases hrl : col.rateLimitChecker m.body.payload with
  | error e =>
    rw [dispatch_limiterError cfg col w m e hrl]
    simp [noHandlerAfterStopAux_append, lifeFlagAfter_append, h1, h2,
      noHandlerAfterStopAux, lifeFlagAfter]
  | ok verdict =>
    cases verdict with
    | mk ex cool =>
      cases ex with
      | true =>
        rw [dispatch_rateLimited cfg col w m cool hrl]
        simp [noHandlerAfterStopAux_append, lifeFlagAfter_append, h1, h2,
          noHandlerAfterStopAux, lifeFlagAfter]
      | false =>
        cases hcall : col.requestHandler (mkContext cfg m) with
        | ok u =>
          cases u
          rw [dispatch_allOk cfg col w m cool hcall hrl]
          simp [noHandlerAfterStopAux_append, lifeFlagAfter_append, h1, h2,
            noHandlerAfterStopAux, lifeFlagAfter]
        | error err =>
          cases hcl : col.errorHandler err (mkContext cfg m) with
          | error e2 =>
            rw [dispatch_classifierError cfg col w m cool err e2 hrl hcall hcl]
            simp [noHandlerAfterStopAux_append, lifeFlagAfter_append, h1, h2,
              noHandlerAfterStopAux, lifeFlagAfter]
          | ok dec =>
            cases dec with
            | mk ret rdelay bfail =>
              cases ret with
              | true =>
                rw [dispatch_retry cfg col w m cool rdelay bfail err hrl hcall hcl]
                cases bfail <;>
                  simp [noHandlerAfterStopAux_append, lifeFlagAfter_append, h1, h2,
                    noHandlerAfterStopAux, lifeFlagAfter]
              | false =>
                rw [dispatch_noRetry cfg col w m cool rdelay bfail err hrl hcall hcl]
                cases bfail <;>
                  simp [noHandlerAfterStopAux_append, lifeFlagAfter_append, h1, h2,
                    noHandlerAfterStopAux, lifeFlagAfter]

theorem processBatch_stopSafety {α : Type} (cfg : QueueConfig)
    (col : Collaborators α) (batch : List (StoredMsg α)) :
    ∀ w : World α, noHandlerAfterStopAux false w.trace = true →
      lifeFlagAfter false w.trace = true →
      noHandlerAfterStopAux false (processBatch cfg col w batch).trace = true ∧
      lifeFlagAfter false (processBatch cfg col w batch).trace = true := by
  induction batch with
  | nil => intro w h1 h2; exact ⟨h1, h2⟩
  | cons m ms ih =>
    intro w h1 h2
    rw [processBatch]
    have hd := dispatch_stopSafety cfg col w m h1 h2
    exact ih _ hd.1 hd.2

theorem pollCycle_stopSafety {α : Type} (cfg : QueueConfig) (col : Collaborators α)
    (w : World α) (h1 : noHandlerAfterStopAux false w.trace = true)
    (h2 : lifeFlagAfter false w.trace = true) :
    noHandlerAfterStopAux false (pollCycle cfg col w).trace = true ∧
    lifeFlagAfter false (pollCycle cfg col w).trace = true := by
  unfold pollCycle
  cases earliestAvail w.queue with
  | none => exact ⟨h1, h2⟩
  | some t => exact processBatch_stopSafety cfg col _ _ h1 h2

theorem engineStep_inv {α : Type} (cfg : QueueConfig) (col : Collaborators α)
    (s : EngineSys α) (c : EngineCmd α)
    (h1 : noHandlerAfterStopAux false s.w.trace = true)
    (h2 : lifeFlagAfter false s.w.trace
      = decide (s.life = LifeState.running)) :
    noHandlerAfterStopAux false (engineStep cfg col s c).w.trace = true ∧
    lifeFlagAfter false (engineStep cfg col s c).w.trace
      = decide ((engineStep cfg col s c).life = LifeState.running) := by
  cases c with
  | cmdStart =>
    by_cases hl : s.life = LifeState.running
    · simp [engineStep, hl, h1, h2]
    · simp [engineStep, hl, noHandlerAfterStopAux_append, lifeFlagAfter_append,
        h1, h2, noHandlerAfterStopAux, lifeFlagAfter]
  | cmdStop =>
    by_cases hl : s.life = LifeState.running
    · simp [engineStep, hl, noHandlerAfterStopAux_append, lifeFlagAfter_append,
        h1, h2, noHandlerAfterStopAux, lifeFlagAfter]
    · simp [engineStep, hl, h1, h2]
  | cmdSend p d => simpa [engineStep, sendMessage] using ⟨h1, h2⟩
  | cmdPoll =>
    by_cases hl : s.life = LifeState.running
    · have h2b : lifeFlagAfter false s.w.trace = true := by simp [h2, hl]
      have hp := pollCycle_stopSafety cfg col s.w h1 h2b
      simp [engineStep, hl, hp.1, hp.2]
    · simp [engineStep, hl, h1, h2]

theorem engineRun_inv {α : Type} (cfg : QueueConfig) (col : Collaborators α)
    (cmds : List (EngineCmd α)) :
    ∀ s : EngineSys α, noHandlerAfterStopAux false s.w.trace = true →
      lifeFlagAfter false s.w.trace = decide (s.life = LifeState.running) →
      noHandlerAfterStopAux false (engineRun cfg col s cmds).w.trace = true := by
  induction cmds with
  | nil => intro s h1 h2; exact h1
  | cons c cs ih =>
    intro s h1 h2
    rw [engineRun]
    have hs := engineStep_inv cfg col s c h1 h2
    exact ih _ hs.1 hs.2

/-- C7: for every engine instance and every command sequence, no Handler
invocation occurs between the resolution of a stop() and the next start()
(in the atomic-cycle model stop() resolves only once the in-flight cycle
has drained); and the engine is restartable: after stop() followed by
start(), a message sent after the restart is delivered to the Handler
exactly once with its payload intact. -/
theorem c7_stop_restart {α : Type} (cfg : QueueConfig) (col : Collaborators α)
    (p : α) (cmds : List (EngineCmd α))
    (hh : ∀ ctx, col.requestHandler ctx = Except.ok ())
    (hrl : ∀ q, col.rateLimitChecker q = Except.ok ⟨false, 0⟩) :
    noHandlerAfterStop (engineRun cfg col initialSys cmds).w.trace = true ∧
    (handlerCtxs (engineRun cfg col initialSys
        [EngineCmd.cmdStart, EngineCmd.cmdStop, EngineCmd.cmdStart,
         EngineCmd.cmdSend p 0, EngineCmd.cmdPoll]).w.trace).map Context.payload
      = [p] ∧
    handlerStartCount (engineRun cfg col initialSys
        [EngineCmd.cmdStart, EngineCmd.cmdStop, EngineCmd.cmdStart,
         EngineCmd.cmdSend p 0, EngineCmd.cmdPoll]).w.trace = 1 := by
  have e1 : engineRun cfg col initialSys
      [EngineCmd.cmdStart, EngineCmd.cmdStop, EngineCmd.cmdStart,
       EngineCmd.cmdSend p 0, EngineCmd.cmdPoll]
      = ⟨LifeState.running, pollCycle cfg col ⟨[⟨0, ⟨p, false⟩, 0, 0⟩], 1, 0,
          [Event.startCalled 0, Event.stopResolved 0, Event.startCalled 0]⟩⟩ := rfl
  refine ⟨engineRun_inv cfg col cmds initialSys rfl rfl, ?_, ?_⟩
  · rw [e1]
    show (handlerCtxs (pollCycle cfg col ⟨[⟨0, ⟨p, false⟩, 0, 0⟩], 1, 0,
      [Event.startCalled 0, Event.stopResolved 0, Event.startCalled 0]⟩).trace).map
        Context.payload = [p]
    rw [pollCycle_singleton, dispatch_allOk cfg col _ _ 0 (hh _) (hrl _)]
    simp [handlerCtxs, mkContext, bumpReceive]
  · rw [e1]
    show handlerStartCount (pollCycle cfg col ⟨[⟨0, ⟨p, false⟩, 0, 0⟩], 1, 0,
      [Event.startCalled 0, Event.stopResolved 0, Event.startCalled 0]⟩).trace = 1
    rw [pollCycle_singleton, dispatch_allOk cfg col _ _ 0 (hh _) (hrl _)]
    simp [handlerStartCount, handlerCtxs]

theorem c7_stop_restart_witness :
    noHandlerAfterStop (engineRun cfgNormal colAllOk initialSys
        [EngineCmd.cmdStart, EngineCmd.cmdPoll, EngineCmd.cmdStop]).w.trace
      = true ∧
    (handlerCtxs (engineRun cfgNormal colAllOk initialSys
        [EngineCmd.cmdStart, EngineCmd.cmdStop, EngineCmd.cmdStart,
         EngineCmd.cmdSend "p" 0, EngineCmd.cmdPoll]).w.trace).map Context.payload
      = ["p"] ∧
    handlerStartCount (engineRun cfgNormal colAllOk initialSys
        [EngineCmd.cmdStart, EngineCmd.cmdStop, EngineCmd.cmdStart,
         EngineCmd.cmdSend "p" 0, EngineCmd.cmdPoll]).w.trace = 1 :=
  c7_stop_restart cfgNormal colAllOk "p"
    [EngineCmd.cmdStart, EngineCmd.cmdPoll, EngineCmd.cmdStop]
    (fun _ => rfl) (fun _ => rfl)

/-- C8: when the Rate Limiter itself throws, the cycle aborts with the
message left undeleted (so the transport's natural redelivery applies) and
the Handler is not invoked; when the Error Classifier itself throws after a
Handler failure, the message is likewise left undeleted; and no cycle error
terminates the engine: a poll step never changes the lifecycle state, so
the loop keeps polling until stop() is called. -/
theorem c8_collaborator_failures {α : Type} (cfg : QueueConfig)
    (colL colC : Collaborators α) (w : World α) (m : StoredMsg α)
    (eL eH eC : String) (s : EngineSys α)
    (hL : colL.rateLimitChecker m.body.payload = Except.error eL)
    (hCr : colC.rateLimitChecker m.body.payload = Except.ok ⟨false, 0⟩)
    (hCh : colC.requestHandler (mkContext cfg m) = Except.error eH)
    (hCc : colC.errorHandler eH (mkContext cfg m) = Except.error eC) :
    dispatch cfg colL w m =
      { w with
        queue := w.queue ++ [{ m with availableAt := w.now + cfg.timeoutSec }],
        trace := w.trace ++ [Event.cycleError m.msgId w.now] } ∧
    handlerCtxs (dispatch cfg colL w m).trace = handlerCtxs w.trace ∧
    deletedIds (dispatch cfg colL w m).trace = deletedIds w.trace ∧
    dispatch cfg colC w m =
      { w with
        now := w.now + colC.handlerDurationSec,
        queue := w.queue ++
          [{ m with availableAt := w.now + colC.handlerDurationSec + cfg.timeoutSec }],
        trace := w.trace ++ [Event.handlerStart m.msgId w.now (mkContext cfg m),
          Event.handlerEnd m.msgId (w.now + colC.handlerDurationSec) false,
          Event.cycleError m.msgId (w.now + colC.handlerDurationSec)] } ∧
    deletedIds (dispatch cfg colC w m).trace = deletedIds w.trace ∧
    (engineStep cfg colL s EngineCmd.cmdPoll).life = s.life ∧
    (engineStep cfg colC s EngineCmd.cmdPoll).life = s.life := by
  have hLd := dispatch_limiterError cfg colL w m eL hL
  have hCd := dispatch_classifierError cfg colC w m 0 eH eC hCr hCh hCc
  refine ⟨hLd, ?_, ?_, hCd, ?_, ?_, ?_⟩
  · rw [hLd]; simp [handlerCtxs, List.filterMap_append]
  · rw [hLd]; simp [deletedIds, List.filterMap_append]
  · rw [hCd]; simp [deletedIds, List.filterMap_append]
  · by_cases hl : s.life = LifeState.running <;> simp [engineStep, hl]
  · by_cases hl : s.life = LifeState.running <;> simp [engineStep, hl]

theorem c8_collaborator_failures_witness :
    dispatch cfgNormal colLimiterThrows initialWorld ⟨0, ⟨"p", false⟩, 0, 1⟩ =
      ⟨[⟨0, ⟨"p", false⟩, 10, 1⟩], 0, 0, [Event.cycleError 0 0]⟩ ∧
    handlerCtxs (dispatch cfgNormal colLimiterThrows initialWorld
        ⟨0, ⟨"p", false⟩, 0, 1⟩).trace = [] ∧
    deletedIds (dispatch cfgNormal colLimiterThrows initialWorld
        ⟨0, ⟨"p", false⟩, 0, 1⟩).trace = [] ∧
    deletedIds (dispatch cfgNormal colClassifierThrows initialWorld
        ⟨0, ⟨"p", false⟩, 0, 1⟩).trace = [] ∧
    (engineStep cfgNormal colLimiterThrows (initialSys (α := String))
        EngineCmd.cmdPoll).life = LifeState.stopped := by
  have h := c8_collaborator_failures cfgNormal colLimiterThrows colClassifierThrows
    initialWorld ⟨0, ⟨"p", false⟩, 0, 1⟩ "limiter exploded" "Something bad happened"
    "classifier exploded" (initialSys (α := String)) rfl rfl rfl rfl
  exact ⟨h.1, h.2.1, h.2.2.1, h.2.2.2.2.1, h.2.2.2.2.2.1⟩

theorem foldl_overwrite {A B : Type} (p : A → Bool) (v : A → B) (L : List A) :
    ∀ acc : Option B,
      L.foldl (fun a q => if p q then some (v q) else a) acc
        = match L.reverse.find? p with
          | some q => some (v q)
          | none => acc := by
  induction L with
  | nil => intro acc; rfl
  | cons q L ih =>
    intro acc
    rw [List.foldl_cons, ih]
    rw [List.reverse_cons, List.find?_append]
    cases hf : L.reverse.find? p with
    | some r => simp [Option.or]
    | none =>
      simp only [Option.or]
      cases hp : p q <;> simp [List.find?, hp]

/-- C9: getNextPage returns none exactly when the link header is absent or
contains no URL annotated rel next, or when that URL's query string carries
no page parameter; otherwise it returns the Number coercion of the value of
the last page parameter of that URL's query string. -/
theorem c9_getNextPage (link : Option String) :
    (getNextPage link
      = ((findNextUrl (link.getD "").data).bind lastPageParam).map jsNumOfValue) ∧
    getNextPage none = none := by
  refine ⟨?_, rfl⟩
  cases hfu : findNextUrl (link.getD "").data with
  | none =>
    unfold getNextPage
    rw [hfu]
    rfl
  | some u =>
    rw [Option.some_bind]
    unfold getNextPage lastPageParam
    rw [hfu]
    cases huq : urlQuery u with
    | none => simp only [huq]; rfl
    | some q =>
      simp only [huq]
      rw [foldl_overwrite (fun query => (query.splitOn "=").headD "" == "page")
            (fun query => jsNumOfValue ((query.splitOn "=").get? 1))
            ((String.mk q).splitOn "&") none]
      cases hf : ((String.mk q).splitOn "&").reverse.find?
          (fun query => (query.splitOn "=").headD "" == "page") with
      | none => rfl
      | some r => rfl

theorem isPrefixOf_eq_append (pat : List Char) :
    ∀ s : List Char, pat.isPrefixOf s = true → s = pat ++ s.drop pat.length := by
  induction pat with
  | nil => intro s h; simp
  | cons a pat ih =>
    intro s h
    cases s with
    | nil => simp [List.isPrefixOf] at h
    | cons b s =>
      rw [List.isPrefixOf] at h
      simp only [Bool.and_eq_true, beq_iff_eq] at h
      obtain ⟨rfl, h2⟩ := h
      exact congrArg (List.cons a) (ih s h2)

theorem splitFirst_eq (pat : List Char) :
    ∀ s pre post, splitFirst pat s = some (pre, post) → s = pre ++ pat ++ post := by
  intro s
  induction s with
  | nil =>
    intro pre post h
    rw [splitFirst] at h
    by_cases hp : pat.isEmpty = true
    · rw [if_pos hp] at h
      obtain ⟨rfl, rfl⟩ : pre = [] ∧ post = [] := by
        constructor <;> injection h with h2 <;> cases h2 <;> rfl
      simp [List.isEmpty_iff.mp hp]
    · rw [if_neg hp] at h
      exact absurd h (by simp)
  | cons c rest ih =>
    intro pre post h
    rw [splitFirst] at h
    by_cases hp : pat.isPrefixOf (c :: rest) = true
    · rw [if_pos hp] at h
      obtain ⟨rfl, rfl⟩ : pre = [] ∧ post = (c :: rest).drop pat.length := by
        constructor <;> injection h with h2 <;> cases h2 <;> rfl
      simpa using isPrefixOf_eq_append pat (c :: rest) hp
    · rw [if_neg hp] at h
      cases hrec : splitFirst pat rest with
      | none => rw [hrec] at h; exact absurd h (by simp)
      | some pr =>
        rw [hrec] at h
        obtain ⟨rfl, rfl⟩ : pre = c :: pr.1 ∧ post = pr.2 := by
          constructor <;> injection h with h2 <;> cases h2 <;> rfl
        have := ih pr.1 pr.2 (by rw [hrec])
        simp only [List.cons_append]
        exact congrArg (List.cons c) this

theorem splitFirst_first (pat : List Char) :
    ∀ s pre post, splitFirst pat s = some (pre, post) →
      ∀ i, i < pre.length → pat.isPrefixOf (s.drop i) = false := by
  intro s
  induction s with
  | nil =>
    intro pre post h
    rw [splitFirst] at h
    by_cases hp : pat.isEmpty = true
    · rw [if_pos hp] at h
      obtain rfl : pre = [] := by injection h with h2; cases h2; rfl
      intro i hi
      exact absurd hi (by simp)
    · rw [if_neg hp] at h
      exact absurd h (by simp)
  | cons c rest ih =>
    intro pre post h
    rw [splitFirst] at h
    by_cases hp : pat.isPrefixOf (c :: rest) = true
    · rw [if_pos hp] at h
      obtain rfl : pre = [] := by injection h with h2; cases h2; rfl
      intro i hi
      exact absurd hi (by simp)
    · rw [if_neg hp] at h
      cases hrec : splitFirst pat rest with
      | none => rw [hrec] at h; exact absurd h (by simp)
      | some pr =>
        rw [hrec] at h
        obtain rfl : pre = c :: pr.1 := by injection h with h2; cases h2; rfl
        intro i hi
        cases i with
        | zero =>
          cases hb : pat.isPrefixOf (c :: rest) with
          | true => exact absurd hb hp
          | false => exact hb
        | succ j =>
          have hj : j < pr.1.length := by
            simpa [Nat.succ_lt_succ_iff] using hi
          exact ih pr.1 pr.2 (by rw [hrec]) j hj

/-- C10 (amended): when encrypt fails it rethrows the underlying error
after replacing the first occurrence of the plaintext in the error's
message with the censored marker: a message without an occurrence is
rethrown unchanged, and when an occurrence exists the replaced one is the
earliest (no occurrence starts before it); occurrences after the first are
left in place, so the propagated message is not guaranteed to be free of
the plaintext when it occurred more than once. -/
theorem c10_encrypt_censors_first (e : JsError) (plainText : String) :
    (splitFirst plainText.data e.message.data = none →
      EncryptionClient.encrypt (Except.error e) plainText = Except.error e) ∧
    (∀ pre post, splitFirst plainText.data e.message.data = some (pre, post) →
      e.message.data = pre ++ plainText.data ++ post ∧
      EncryptionClient.encrypt (Except.error e) plainText
        = Except.error ⟨String.mk (pre ++ censoredStr.data ++ post)⟩ ∧
      ∀ i, i < pre.length →
        plainText.data.isPrefixOf (e.message.data.drop i) = false) := by
  constructor
  · intro h
    simp [EncryptionClient.encrypt, jsReplaceFirst, h]
  · intro pre post h
    refine ⟨splitFirst_eq _ _ _ _ h, ?_, splitFirst_first _ _ _ _ h⟩
    simp [EncryptionClient.encrypt, jsReplaceFirst, h]

theorem c10_encrypt_censors_first_witness :
    EncryptionClient.encrypt (Except.error ⟨"xy"⟩) "ab" = Except.error ⟨"xy"⟩ ∧
    EncryptionClient.encrypt (Except.error ⟨"xaby"⟩) "ab"
      = Except.error ⟨"x<censored>y"⟩ := by
  refine ⟨(c10_encrypt_censors_first ⟨"xy"⟩ "ab").1 rfl, ?_⟩
  exact ((c10_encrypt_censors_first ⟨"xaby"⟩ "ab").2 "x".data "y".data rfl).2.1

/-- C10 counterexample: a message containing the plaintext twice still
contains it after censoring: with plaintext ab and failing message abab the
propagated message is the censored marker followed by ab, which still
contains the plaintext. -/
theorem c10_counterexample :
    EncryptionClient.encrypt (Except.error ⟨"abab"⟩) "ab"
      = Except.error ⟨"<censored>ab"⟩ ∧
    containsSub "ab".data "<censored>ab".data = true := by
  exact ⟨rfl, rfl⟩

theorem sequentialInvocations_append_len {α : Type} (n : Nat) :
    ∀ xs ys : List (Event α), xs.length ≤ n →
      sequentialInvocations xs = true → sequentialInvocations ys = true →
      sequentialInvocations (xs ++ ys) = true := by
  induction n with
  | zero =>
    intro xs ys hlen hx hy
    have hnil : xs = [] := List.eq_nil_of_length_eq_zero (Nat.le_zero.mp hlen)
    subst hnil
    simpa using hy
  | succ n ih =>
    intro xs ys hlen hx hy
    cases xs with
    | nil => simpa using hy
    | cons e rest =>
      have hlen2 : rest.length ≤ n := by simp at hlen; omega
      cases e with
      | handlerStart i t c =>
        cases rest with
        | nil => simp [sequentialInvocations] at hx
        | cons e2 rest2 =>
          cases e2 with
          | handlerEnd j t2 ok =>
            have hlen3 : rest2.length ≤ n := by simp at hlen; omega
            simp only [sequentialInvocations, Bool.and_eq_true] at hx
            simp only [List.cons_append, sequentialInvocations, Bool.and_eq_true]
            exact ⟨hx.1, ih rest2 ys hlen3 hx.2 hy⟩
          | handlerStart a b c2 => simp [sequentialInvocations] at hx
          | deleteMsg a b => simp [sequentialInvocations] at hx
          | visibilityChange a b c2 => simp [sequentialInvocations] at hx
          | sendMsg a b c2 d => simp [sequentialInvocations] at hx
          | failureMetric a b => simp [sequentialInvocations] at hx
          | cycleError a b => simp [sequentialInvocations] at hx
          | startCalled a => simp [sequentialInvocations] at hx
          | stopResolved a => simp [sequentialInvocations] at hx
      | handlerEnd a b c2 =>
        simp only [sequentialInvocations] at hx
        simp only [List.cons_append, sequentialInvocations]
        exact ih rest ys hlen2 hx hy
      | deleteMsg a b =>
        simp only [sequentialInvocations] at hx
        simp only [List.cons_append, sequentialInvocations]
        exact ih rest ys hlen2 hx hy
      | visibilityChange a b c2 =>
        simp only [sequentialInvocations] at hx
        simp only [List.cons_append, sequentialInvocations]
        exact ih rest ys hlen2 hx hy
      | sendMsg a b c2 d =>
        simp only [sequentialInvocations] at hx
        simp only [List.cons_append, sequentialInvocations]
        exact ih rest ys hlen2 hx hy
      | failureMetric a b =>
        simp only [sequentialInvocations] at hx
        simp only [List.cons_append, sequentialInvocations]
        exact ih rest ys hlen2 hx hy
      | cycleError a b =>
        simp only [sequentialInvocations] at hx
        simp only [List.cons_append, sequentialInvocations]
        exact ih rest ys hlen2 hx hy
      | startCalled a =>
        simp only [sequentialInvocations] at hx
        simp only [List.cons_append, sequentialInvocations]
        exact ih rest ys hlen2 hx hy
      | stopResolved a =>
        simp only [sequentialInvocations] at hx
        simp only [List.cons_append, sequentialInvocations]
        exact ih rest ys hlen2 hx hy

theorem sequentialInvocations_append {α : Type} (xs ys : List (Event α))
    (hx : sequentialInvocations xs = true)
    (hy : sequentialInvocations ys = true) :
    sequentialInvocations (xs ++ ys) = true :=
  sequentialInvocations_append_len xs.length xs ys (Nat.le_refl _) hx hy

theorem dispatch_sequential {α : Type} (cfg : QueueConfig) (col : Collaborators α)
    (w : World α) (m : StoredMsg α)
    (h : sequentialInvocations w.trace = true) :
    sequentialInvocations (dispatch cfg col w m).trace = true := by
  cases hrl : col.rateLimitChecker m.body.payload with
  | error e =>
    rw [dispatch_limiterError cfg col w m e hrl]
    exact sequentialInvocations_append _ _ h (by simp [sequentialInvocations])
  | ok verdict =>
    cases verdict with
    | mk ex cool =>
      cases ex with
      | true =>
        rw [dispatch_rateLimited cfg col w m cool hrl]
        exact sequentialInvocations_append _ _ h (by simp [sequentialInvocations])
      | false =>
        cases hcall : col.requestHandler (mkContext cfg m) with
        | ok u =>
          cases u
          rw [dispatch_allOk cfg col w m cool hcall hrl]
          exact sequentialInvocations_append _ _ h
            (by simp [sequentialInvocations])
        | error err =>
          cases hcl : col.errorHandler err (mkContext cfg m) with
          | error e2 =>
            rw [dispatch_classifierError cfg col w m cool err e2 hrl hcall hcl]
            exact sequentialInvocations_append _ _ h
              (by simp [sequentialInvocations])
          | ok dec =>
            cases dec with
            | mk ret rdelay bfail =>
              cases ret with
              | true =>
                rw [dispatch_retry cfg col w m cool rdelay bfail err hrl hcall hcl]
                simp only [List.append_assoc]
                refine sequentialInvocations_append _ _ h ?_
                cases bfail <;> simp [sequentialInvocations]
              | false =>
                rw [dispatch_noRetry cfg col w m cool rdelay bfail err hrl hcall hcl]
                simp only [List.append_assoc]
                refine sequentialInvocations_append _ _ h ?_
                cases bfail <;> simp [sequentialInvocations]

theorem processBatch_sequential {α : Type} (cfg : QueueConfig)
    (col : Collaborators α) (batch : List (StoredMsg α)) :
    ∀ w : World α, sequentialInvocations w.trace = true →
      sequentialInvocations (processBatch cfg col w batch).trace = true := by
  induction batch with
  | nil => intro w h; exact h
  | cons m ms ih =>
    intro w h
    rw [processBatch]
    exact ih _ (dispatch_sequential cfg col w m h)

theorem pollCycle_sequential {α : Type} (cfg : QueueConfig)
    (col : Collaborators α) (w : World α)
    (h : sequentialInvocations w.trace = true) :
    sequentialInvocations (pollCycle cfg col w).trace = true := by
  unfold pollCycle
  cases earliestAvail w.queue with
  | none => exact h
  | some t => exact processBatch_sequential cfg col _ _ h

theorem runLoop_sequential {α : Type} (cfg : QueueConfig) (col : Collaborators α)
    (fuel : Nat) : ∀ w : World α, sequentialInvocations w.trace = true →
      sequentialInvocations (runLoop cfg col fuel w).trace = true := by
  induction fuel with
  | zero => intro w h; exact h
  | succ n ih =>
    intro w h
    rw [runLoop]
    by_cases hq : w.queue.isEmpty = true
    · simpa [hq] using h
    · simpa [hq] using ih _ (pollCycle_sequential cfg col w h)

/-- C1: for every engine instance, Handler invocations never overlap: in
every run, with arbitrary collaborators — so whether each dispatch resolves
by delete, retry-leave or requeue — every invocation is fully resolved
before the next begins; and for N concurrently sent messages with a
succeeding Handler the Handler is invoked exactly N times, strictly
sequentially in the order the messages are returned, so total elapsed
logical time is at least N times the handler duration. -/
theorem c1_sequential_processing {α : Type} (cfg : QueueConfig)
    (col : Collaborators α) (payloads : List α) (fuel : Nat)
    (hh : ∀ ctx, col.requestHandler ctx = Except.ok ())
    (hrl : ∀ p, col.rateLimitChecker p = Except.ok ⟨false, 0⟩)
    (hfuel : 0 < fuel) :
    (∀ (col2 : Collaborators α) (fuel2 : Nat) (w : World α),
        sequentialInvocations w.trace = true →
        sequentialInvocations (runLoop cfg col2 fuel2 w).trace = true) ∧
    handlerStartCount (runLoop cfg col fuel (sendAll initialWorld payloads)).trace
        = payloads.length ∧
    (handlerCtxs (runLoop cfg col fuel (sendAll initialWorld payloads)).trace).map
        Context.payload = payloads ∧
    sequentialInvocations (runLoop cfg col fuel (sendAll initialWorld payloads)).trace
        = true ∧
    payloads.length * col.handlerDurationSec
        ≤ (runLoop cfg col fuel (sendAll initialWorld payloads)).now := by
  refine ⟨fun col2 fuel2 w hw => runLoop_sequential cfg col2 fuel2 w hw, ?_⟩
  have hw0 : sendAll (initialWorld (α := α)) payloads =
      ⟨freshMsgs 0 0 payloads, payloads.length, 0, []⟩ := by
    rw [sendAll_spec]
    simp [initialWorld]
  cases payloads with
  | nil =>
    rw [hw0, runLoop_of_empty cfg col fuel _ rfl]
    simp [handlerStartCount, handlerCtxs, sequentialInvocations]
  | cons p ps =>
    obtain ⟨n, rfl⟩ : ∃ n, fuel = n + 1 := ⟨fuel - 1, by omega⟩
    rw [hw0]
    have hrun : runLoop cfg col (n + 1) ⟨freshMsgs 0 0 (p :: ps), (p :: ps).length, 0, []⟩
        = runLoop cfg col n
            (pollCycle cfg col ⟨freshMsgs 0 0 (p :: ps), (p :: ps).length, 0, []⟩) := by
      rw [runLoop]
      simp [freshMsgs]
    have hpoll : pollCycle cfg col ⟨freshMsgs 0 0 (p :: ps), (p :: ps).length, 0, []⟩
        = processBatch cfg col ⟨[], (p :: ps).length, 0, []⟩
            ((freshMsgs 0 0 (p :: ps)).map bumpReceive) := by
      rw [pollCycle]
      rw [show (⟨freshMsgs 0 0 (p :: ps), (p :: ps).length, 0, []⟩ : World α).queue
            = freshMsgs 0 0 (p :: ps) from rfl]
      rw [freshMsgs_earliest 0 0 (p :: ps) (by simp)]
      simp only [Nat.max_self]
      rw [freshMsgs_filter_le 0 0 0 (p :: ps) (Nat.le_refl 0),
          freshMsgs_filter_gt 0 0 0 (p :: ps) (Nat.le_refl 0)]
    rw [hrun, hpoll, processBatch_allOk cfg col hh hrl _ _,
        runLoop_of_empty cfg col n _ rfl]
    refine ⟨?_, ?_, ?_, ?_⟩
    · simp [handlerStartCount, handlerCtxs_okTrace, freshMsgs_length]
    · rw [show (({ queue := [], nextId := (p :: ps).length, now := 0, trace := [] } :
          World α).trace ++ okTrace cfg col 0 ((freshMsgs 0 0 (p :: ps)).map bumpReceive))
            = okTrace cfg col 0 ((freshMsgs 0 0 (p :: ps)).map bumpReceive) from by simp]
      rw [handlerCtxs_okTrace]
      exact map_payload_fresh cfg 0 0 (p :: ps)
    · rw [show (({ queue := [], nextId := (p :: ps).length, now := 0, trace := [] } :
          World α).trace ++ okTrace cfg col 0 ((freshMsgs 0 0 (p :: ps)).map bumpReceive))
            = okTrace cfg col 0 ((freshMsgs 0 0 (p :: ps)).map bumpReceive) from by simp]
      exact sequentialInvocations_okTrace cfg col _ 0
    · simp [freshMsgs_length]

theorem c1_sequential_processing_witness :
    sequentialInvocations (runLoop cfgTimeouts colAlwaysFailRetryTwice 10
        (sendAll initialWorld ["tenant"])).trace = true ∧
    sequentialInvocations (runLoop cfgNormal (colRateLimited 123) 3
        (sendAll initialWorld ["p"])).trace = true ∧
    handlerStartCount (runLoop cfgNormal colAllOk 3
        (sendAll initialWorld ["a", "b"])).trace = 2 ∧
    (handlerCtxs (runLoop cfgNormal colAllOk 3
        (sendAll initialWorld ["a", "b"])).trace).map Context.payload
      = ["a", "b"] ∧
    sequentialInvocations (runLoop cfgNormal colAllOk 3
        (sendAll initialWorld ["a", "b"])).trace = true ∧
    2 * colAllOk.handlerDurationSec
        ≤ (runLoop cfgNormal colAllOk 3 (sendAll initialWorld ["a", "b"])).now := by
  have h := c1_sequential_processing cfgNormal colAllOk ["a", "b"] 3
    (fun _ => rfl) (fun _ => rfl) (by decide)
  have h2 := c1_sequential_processing cfgTimeouts colAllOk [] 1
    (fun _ => rfl) (fun _ => rfl) (by decide)
  exact ⟨h2.1 colAlwaysFailRetryTwice 10 (sendAll initialWorld ["tenant"]) (by decide),
         h.1 (colRateLimited 123) 3 (sendAll initialWorld ["p"]) (by decide),
         h.2.1, h.2.2.1, h.2.2.2.1, h.2.2.2.2⟩
